import Mathlib

/-!
Verification development for the morethanamsterdam trip-planning core.

The heart of the program is the DuckDB table macro `get_trips`
(src/create_macro.sql): a recursive path search over scheduled train legs,
followed by deduplication, a diversity-aware ranking pass and a final sort.
The surrounding JavaScript (src/data.js) prepares and executes the macro with
a timeout wrapper and an inline-SQL fallback.

Shallow embedding conventions:
* Timestamps (`departure_time_tb`, `arrival_time_tb`) are minutes since
  midnight, as `Nat`.  The SQL functions `hour`, `minute` and
  `time_bucket(INTERVAL 15 minutes, t)` become `t / 60`, `t % 60` and
  `15 * (t / 15)`.  `INTERVAL (x) HOUR` becomes `60 * x` minutes.
* `date_diff(minute, a, b)` becomes integer subtraction on `Int`.
* The per-day parquet partition and the stations CSV are the two read-only
  input lists (`List ServiceLeg`, `List StationRow`); day-of-week selection
  happens outside the macro by choosing the leg list.
* The recursive CTE `planning` is embedded as an iteration: `planning_step 0`
  is the seed query, `planning_step (n+1)` applies the recursive arm to the
  rows produced at step `n`, and `planning fuel` is the union of the first
  `fuel` iterations (the CTE itself is the union over all iterations; every
  concrete evaluation below is shown to have stabilised, i.e. its next step
  is empty).
* The window function `max(...) OVER (rows between unbounded preceding and
  unbounded following)` in the recursive arm is the maximum over the whole
  batch of rows produced in that iteration.
* `array_agg(municipalities) OVER (ORDER BY m_p desc rows between unbounded
  preceding and 1 preceding)` aggregates, in ROWS framing, over all strictly
  preceding rows of the `m_p`-descending order; over an empty frame the
  aggregate is NULL, modelled as `none`.  NULL `no_overlaps` values sort
  last under DuckDB's default `ASC` null ordering (nulls last), which the
  final comparator `finalLe` reflects.
* `row_number() OVER (PARTITION BY k ORDER BY v)` ties are resolved in
  first-seen row order, and the `ORDER BY m_p desc` of the ranking pass is
  modelled as a stable sort, matching the deterministic first-seen
  behaviour the engine exhibits on these queries.
-/

/-! ### Time helpers -/

def hourOf (t : Nat) : Nat := t / 60

def minuteOf (t : Nat) : Nat := t % 60

def bucket15 (t : Nat) : Nat := 15 * (t / 15)

/-! ### Input data model -/

/-- One scheduled leg, as stored in the per-day-of-week parquet partition. -/
structure ServiceLeg where
  from_station_code : String
  to_station_code : String
  departure_time_tb : Nat
  arrival_time_tb : Nat
  from_municipality_sk : String
  to_municipality_sk : String
  from_province_sk : String
  to_province_sk : String
deriving DecidableEq, Repr

/-- A leg of `train_schedule`: the source columns plus the derived
`travel_time = date_diff(minute, departure_time_tb, arrival_time_tb)`. -/
structure SchedLeg where
  from_station_code : String
  to_station_code : String
  departure_time_tb : Nat
  arrival_time_tb : Nat
  from_municipality_sk : String
  to_municipality_sk : String
  from_province_sk : String
  to_province_sk : String
  travel_time : Int
deriving DecidableEq, Repr

def mkSched (l : ServiceLeg) : SchedLeg :=
  { from_station_code := l.from_station_code
    to_station_code := l.to_station_code
    departure_time_tb := l.departure_time_tb
    arrival_time_tb := l.arrival_time_tb
    from_municipality_sk := l.from_municipality_sk
    to_municipality_sk := l.to_municipality_sk
    from_province_sk := l.from_province_sk
    to_province_sk := l.to_province_sk
    travel_time := (l.arrival_time_tb : Int) - (l.departure_time_tb : Int) }

/-- A row of train_stations.csv; the macro reads only the station code and
its monument count. -/
structure StationRow where
  station_code : String
  number_of_monuments : Nat
deriving DecidableEq, Repr

/-- The eight declared parameters of the `get_trips` macro. -/
structure TripQuery where
  input_day_of_week : Nat
  input_station_code : String
  input_hour_departure : Nat
  input_minute_departure : Nat
  input_to_station_code : String
  input_hour_arrival : Nat
  input_layover_time : Nat
  input_to_municipality_sk : String
deriving DecidableEq, Repr

/-! ### train_schedule CTE -/

/-- The `train_schedule` CTE: every leg of the day's partition, annotated
with `travel_time`, kept when `travel_time between 15 and 60` and
NOT (to_municipality_sk = input_to_municipality_sk AND
     to_station_code != input_to_station_code). -/
def train_schedule (legs : List ServiceLeg) (q : TripQuery) : List SchedLeg :=
  (legs.map mkSched).filter fun s =>
    (!(s.to_municipality_sk == q.input_to_municipality_sk
        && s.to_station_code != q.input_to_station_code))
    && decide (15 ≤ s.travel_time) && decide (s.travel_time ≤ 60)

/-! ### planning CTE -/

/-- A row of the recursive `planning` CTE. -/
structure PlanningRow where
  from_station_code : String
  to_station_code : String
  path : List String
  time_schedule : List Nat
  municipalities : List String
  provinces : List String
  travel_time : Int
  departure_time_tb : Nat
  arrival_time_tb : Nat
  end_reached : Nat
  to_municipality_sk : String
  number_of_monuments : Nat
deriving DecidableEq, Repr

/-- The WHERE clause of the seed arm of `planning`: the leg leaves the origin
station at exactly the requested hour and minute and does not go directly to
the destination station. -/
def seedCond (q : TripQuery) (l : SchedLeg) : Bool :=
  l.from_station_code == q.input_station_code
  && hourOf l.departure_time_tb == q.input_hour_departure
  && minuteOf l.departure_time_tb == q.input_minute_departure
  && l.to_station_code != q.input_to_station_code

def mkSeedRow (l : SchedLeg) (s : StationRow) : PlanningRow :=
  { from_station_code := l.from_station_code
    to_station_code := l.to_station_code
    path := [l.from_station_code, l.to_station_code]
    time_schedule := [l.departure_time_tb, l.arrival_time_tb]
    municipalities := [l.from_municipality_sk, l.to_municipality_sk]
    provinces := [l.from_province_sk, l.to_province_sk]
    travel_time := l.travel_time
    departure_time_tb := l.departure_time_tb
    arrival_time_tb := l.arrival_time_tb
    end_reached := 0
    to_municipality_sk := l.to_municipality_sk
    number_of_monuments := s.number_of_monuments }

/-- The non-recursive arm of `planning`: seed rows for legs satisfying
`seedCond`, joined with the stations file on `to_station_code = station_code`
for the monument count. -/
def planning_seed (ts : List SchedLeg) (st : List StationRow) (q : TripQuery) :
    List PlanningRow :=
  ts.flatMap fun l =>
    if seedCond q l
    then (st.filter fun s => s.station_code == l.to_station_code).map (mkSeedRow l)
    else []

/-- The JOIN ... ON plus WHERE condition of the recursive arm, between a
previous-iteration row `p` and a candidate `train_schedule` leg `l`:
contiguity, 15-minute-bucket layover compatibility, the
fresh-municipality-or-terminal disjunction, and `planning.end_reached = 0`. -/
def joinWhere (q : TripQuery) (p : PlanningRow) (l : SchedLeg) : Bool :=
  (p.to_station_code == l.from_station_code)
  && (bucket15 (p.arrival_time_tb + 60 * q.input_layover_time)
      == bucket15 l.departure_time_tb)
  && ((!(p.municipalities.contains l.to_municipality_sk)
        && l.to_municipality_sk != q.input_to_municipality_sk)
      || (l.to_station_code == q.input_to_station_code
          && hourOf l.arrival_time_tb == q.input_hour_arrival))
  && (p.end_reached == 0)

/-- The row built by the recursive SELECT from previous row `p`, leg `l`, and
the joined station row `s` (monument count of the new to-station).  The
`end_reached` window value is filled in afterwards by `planning_next`;
note that the recursive arm selects `planning.to_municipality_sk`, i.e. the
previous row's value, for the `to_municipality_sk` column. -/
def mkPlanRow (p : PlanningRow) (l : SchedLeg) (s : StationRow) : PlanningRow :=
  { from_station_code := l.from_station_code
    to_station_code := l.to_station_code
    path := p.path ++ [l.to_station_code]
    time_schedule := p.time_schedule ++ [l.departure_time_tb, l.arrival_time_tb]
    municipalities := p.municipalities ++ [l.to_municipality_sk]
    provinces := p.provinces ++ [l.to_province_sk]
    travel_time := p.travel_time + l.travel_time
    departure_time_tb := l.departure_time_tb
    arrival_time_tb := l.arrival_time_tb
    end_reached := 0
    to_municipality_sk := p.to_municipality_sk
    number_of_monuments := p.number_of_monuments + s.number_of_monuments }

/-- The extensions contributed by one (previous row, candidate leg) pair. -/
def extOf (q : TripQuery) (st : List StationRow) (p : PlanningRow)
    (l : SchedLeg) : List PlanningRow :=
  if joinWhere q p l
  then (st.filter fun s => s.station_code == l.to_station_code).map (mkPlanRow p l)
  else []

/-- The recursive arm of `planning` before the window function: all rows
produced from the previous iteration `prev` by the join with
`train_schedule` and the stations file. -/
def planning_raw (q : TripQuery) (ts : List SchedLeg) (st : List StationRow)
    (prev : List PlanningRow) : List PlanningRow :=
  prev.flatMap fun p => ts.flatMap fun l => extOf q st p l

/-- The indicator `(to_station_code = input_to_station_code AND
hour(arrival_time_tb) = input_hour_arrival)::int` of a produced row. -/
def isTermB (q : TripQuery) (r : PlanningRow) : Bool :=
  r.to_station_code == q.input_to_station_code
  && hourOf r.arrival_time_tb == q.input_hour_arrival

/-- One full iteration of the recursive arm: produce the raw batch, then set
`end_reached` on every row to the `max` of the terminal indicator over the
entire batch (the window has no partition and an unbounded frame). -/
def planning_next (q : TripQuery) (ts : List SchedLeg) (st : List StationRow)
    (prev : List PlanningRow) : List PlanningRow :=
  (planning_raw q ts st prev).map fun r =>
    { r with end_reached :=
        if (planning_raw q ts st prev).any (isTermB q) then 1 else 0 }

/-- Iteration `n` of the `planning` CTE. -/
def planning_step (legs : List ServiceLeg) (st : List StationRow)
    (q : TripQuery) : Nat → List PlanningRow
  | 0 => planning_seed (train_schedule legs q) st q
  | n + 1 =>
      planning_next q (train_schedule legs q) st (planning_step legs st q n)

/-- The `planning` CTE truncated to its first `fuel` iterations (UNION ALL of
the per-iteration batches, in iteration order). -/
def planning (legs : List ServiceLeg) (st : List StationRow) (q : TripQuery)
    (fuel : Nat) : List PlanningRow :=
  (List.range fuel).flatMap (planning_step legs st q)

/-! ### distinct_paths CTE -/

/-- Code-point comparison on strings, used only to build the canonical
`list_sort(path)` grouping key. -/
def lexLeChars : List Char → List Char → Bool
  | [], _ => true
  | _ :: _, [] => false
  | c :: cs, d :: ds =>
      if c.toNat < d.toNat then true
      else if d.toNat < c.toNat then false
      else lexLeChars cs ds

def strLeP (a b : String) : Prop := lexLeChars a.toList b.toList = true

instance : DecidableRel strLeP := fun a b => by
  unfold strLeP; infer_instance

/-- `list_sort(path)`: the station sequence sorted ascending. -/
def sortKey (l : List String) : List String := List.insertionSort strLeP l

/-- A list paired with 0-based row numbers. -/
def withIdx : Nat → List α → List (Nat × α)
  | _, [] => []
  | n, x :: xs => (n, x) :: withIdx (n + 1) xs

/-- `row_number() OVER (PARTITION BY list_sort(path) ORDER BY travel_time) = 1`:
entry `p` survives against entry `q2` of the same partition when it is
strictly faster, or equally fast and not later in row order. -/
def lexKeepB (p q2 : Nat × PlanningRow) : Bool :=
  !(sortKey p.2.path == sortKey q2.2.path)
  || decide (p.2.travel_time < q2.2.travel_time)
  || (p.2.travel_time == q2.2.travel_time && decide (p.1 ≤ q2.1))

/-- Entry `p` is the `row_number() = 1` survivor of its partition when it
wins `lexKeepB` against every entry of the row set. -/
def keptB (rows : List PlanningRow) (p : Nat × PlanningRow) : Bool :=
  (withIdx 0 rows).all fun q2 => lexKeepB p q2

/-- The QUALIFY clause: keep the first-by-(travel_time, row order) row of
every `list_sort(path)` partition. -/
def qualifyFirst (rows : List PlanningRow) : List PlanningRow :=
  ((withIdx 0 rows).filter (keptB rows)).map fun p => p.2

/-- A row of `distinct_paths`. -/
structure DistinctPath where
  path : List String
  travel_time : Int
  time_schedule : List Nat
  municipalities : List String
  provinces : List String
  number_of_monuments : Nat
deriving DecidableEq, Repr

/-- The `distinct_paths` SELECT list; `provinces` becomes
`list_distinct(provinces)`. -/
def toDistinct (r : PlanningRow) : DistinctPath :=
  { path := r.path
    travel_time := r.travel_time
    time_schedule := r.time_schedule
    municipalities := r.municipalities
    provinces := r.provinces.dedup
    number_of_monuments := r.number_of_monuments }

/-- The `distinct_paths` CTE: planning rows that end at the destination
station with the requested arrival hour, deduplicated by sorted path. -/
def distinct_paths (rows : List PlanningRow) (q : TripQuery) :
    List DistinctPath :=
  (qualifyFirst (rows.filter (isTermB q))).map toDistinct

/-! ### optimal_paths CTE and final SELECT -/

/-- A row of `optimal_paths`, extended with the `no_overlaps` value computed
in the final SELECT.  `m_m` is the ROWS-framed
`array_agg(municipalities) OVER (ORDER BY m_p desc rows between unbounded
preceding and 1 preceding)`; over the empty frame it is NULL (`none`). -/
structure OptimalRow where
  path : List String
  municipalities : List String
  time_schedule : List Nat
  travel_time : Int
  m_p : Nat
  m_m : Option (List (List String))
  number_of_monuments : Nat
  no_overlaps : Option Nat
deriving DecidableEq, Repr

/-- `list_intersect(l1, l2)`: the distinct elements present in both lists. -/
def listIntersect (l1 l2 : List String) : List String :=
  l1.dedup.filter fun x => l2.contains x

/-- Build one `optimal_paths` row from the accumulated footprint `acc`
(municipality lists of all strictly earlier rows in `m_p`-descending order)
and the current `distinct_paths` row;
`no_overlaps = len(list_intersect(municipalities, flatten(m_m)))`. -/
def mkOptimal (acc : List (List String)) (d : DistinctPath) : OptimalRow :=
  let mm : Option (List (List String)) := if acc = [] then none else some acc
  { path := d.path
    municipalities := d.municipalities
    time_schedule := d.time_schedule
    travel_time := d.travel_time
    m_p := d.provinces.length
    m_m := mm
    number_of_monuments := d.number_of_monuments
    no_overlaps := mm.map fun fs => (listIntersect d.municipalities fs.flatten).length }

/-- Walk the `m_p`-descending row order, accumulating each row's
municipality list into the footprint for the later rows (ROWS framing:
ties on `m_p` do accumulate into each other's frames). -/
def optimal_rows (acc : List (List String)) : List DistinctPath → List OptimalRow
  | [] => []
  | d :: rest => mkOptimal acc d :: optimal_rows (acc ++ [d.municipalities]) rest

/-- The `ORDER BY m_p desc` of the window in `optimal_paths`. -/
def provGe (a b : DistinctPath) : Prop :=
  b.provinces.length ≤ a.provinces.length

instance : DecidableRel provGe := fun a b => by
  unfold provGe; infer_instance

/-- The `optimal_paths` CTE (with the final SELECT's `no_overlaps` attached). -/
def optimal_paths (ds : List DistinctPath) : List OptimalRow :=
  optimal_rows [] (List.insertionSort provGe ds)

/-- Comparison of `no_overlaps` values under `ORDER BY ... ASC` with
DuckDB's default NULLS LAST: a NULL sorts after every value. -/
def overlapLtB : Option Nat → Option Nat → Bool
  | some x, some y => decide (x < y)
  | some _, none => true
  | none, _ => false

/-- The final `ORDER BY no_overlaps ASC, number_of_monuments DESC,
travel_time` comparator. -/
def finalLeB (a b : OptimalRow) : Bool :=
  overlapLtB a.no_overlaps b.no_overlaps
  || (a.no_overlaps == b.no_overlaps
      && (decide (b.number_of_monuments < a.number_of_monuments)
          || (a.number_of_monuments == b.number_of_monuments
              && decide (a.travel_time ≤ b.travel_time))))

def finalLe (a b : OptimalRow) : Prop := finalLeB a b = true

instance : DecidableRel finalLe := fun a b => by
  unfold finalLe; infer_instance

/-- Totality and transitivity of the two ORDER BY comparators, needed for
the sortedness of `insertionSort` outputs. -/
instance : IsTotal OptimalRow finalLe :=
  ⟨fun a b => by
    simp only [finalLe, finalLeB, Bool.or_eq_true, Bool.and_eq_true,
      decide_eq_true_eq, beq_iff_eq]
    rcases ha : a.no_overlaps with _ | x <;>
      rcases hb : b.no_overlaps with _ | y <;>
      (try simp only [ha, hb]) <;> (try simp only [overlapLtB]) <;>
      (try simp) <;> omega⟩

instance : IsTrans OptimalRow finalLe :=
  ⟨fun a b c h1 h2 => by
    simp only [finalLe, finalLeB, Bool.or_eq_true, Bool.and_eq_true,
      decide_eq_true_eq, beq_iff_eq] at h1 h2 ⊢
    rcases ha : a.no_overlaps with _ | x <;>
      rcases hb : b.no_overlaps with _ | y <;>
      rcases hc : c.no_overlaps with _ | z <;>
      (try simp only [ha, hb, hc] at h1 h2 ⊢) <;>
      (try simp only [overlapLtB] at h1 h2 ⊢) <;>
      (try simp at h1 h2 ⊢) <;> omega⟩

instance : IsTotal DistinctPath provGe :=
  ⟨fun a b => by simp only [provGe]; omega⟩

instance : IsTrans DistinctPath provGe :=
  ⟨fun a b c h1 h2 => by
    simp only [provGe] at h1 h2 ⊢
    omega⟩

/-- The columns of the final SELECT: `path, time_schedule, no_overlaps`. -/
structure TripResult where
  path : List String
  time_schedule : List Nat
  no_overlaps : Option Nat
deriving DecidableEq, Repr

def toResult (r : OptimalRow) : TripResult :=
  { path := r.path, time_schedule := r.time_schedule, no_overlaps := r.no_overlaps }

/-- Everything downstream of the `planning` CTE, as a function of the
planning rows: filter/dedup, ranking pass, final sort. -/
def trips_pipeline (rows : List PlanningRow) (q : TripQuery) : List OptimalRow :=
  List.insertionSort finalLe (optimal_paths (distinct_paths rows q))

/-- The full `get_trips` evaluation, keeping all columns of the sorted rows. -/
def get_trips_full (legs : List ServiceLeg) (st : List StationRow)
    (q : TripQuery) (fuel : Nat) : List OptimalRow :=
  trips_pipeline (planning legs st q fuel) q

/-- The `get_trips` macro's result set. -/
def get_trips (legs : List ServiceLeg) (st : List StationRow) (q : TripQuery)
    (fuel : Nat) : List TripResult :=
  (get_trips_full legs st q fuel).map toResult

/-! ### The JavaScript caller (src/data.js) -/

/-- The parameter list of the `CREATE OR REPLACE MACRO get_trips(...)`
declaration in src/create_macro.sql. -/
def get_trips_param_names : List String :=
  ["input_day_of_week", "input_station_code", "input_hour_departure",
   "input_minute_departure", "input_to_station_code", "input_hour_arrival",
   "input_layover_time", "input_to_municipality_sk"]

/-- The named placeholders passed to `get_trips` in the prepared-statement
SQL of `executeTripQuery`. -/
def prepared_call_args : List String :=
  ["input_day_of_week", "input_station_code", "input_hour_departure",
   "input_minute_departure", "input_to_station_code", "input_hour_arrival",
   "input_minute_arrival", "input_layover_time", "input_to_municipality_sk"]

/-- The positional arguments interpolated into the inline-SQL fallback call
of `get_trips` in `executeTripQuery`. -/
def inline_call_args : List String :=
  ["dayOfWeek", "stationCode", "hourDeparture", "minuteDeparture",
   "toStationCode", "hourArrival", "minuteArrival", "layoverTime",
   "toMunicipalitySk"]

/-- A macro invocation binds only when the argument count matches the
declared parameter count; otherwise the engine raises a binder error. -/
def invocationBinds (args : List String) : Bool :=
  args.length == get_trips_param_names.length

/-- Outcome of one underlying DuckDB query attempt, as observed by the
promise in `executeTripQuery`: a result set, expiry of the 15000 ms timer,
or a rejection with an error message. -/
inductive QueryOutcome
  | ok (rows : List TripResult)
  | timeout
  | fail (msg : String)
deriving DecidableEq, Repr

/-- The message of the Error the timeout wrapper rejects with
(`setTimeout` callback in `executeQueryWithTimeout`). -/
def timeout_message : String := "unable to plan trip, increase the layover time"

/-- The message `executeTripQuery`'s catch block compares against before
re-throwing (note the capital U, unlike `timeout_message`). -/
def timeout_check_message : String :=
  "Unable to plan trip, increase the layover time"

/-- `executeQueryWithTimeout`: resolve with the rows, or reject with the
timeout message on expiry, or propagate the query's own rejection. -/
def executeQueryWithTimeout : QueryOutcome → Except String (List TripResult)
  | QueryOutcome.ok rows => Except.ok rows
  | QueryOutcome.timeout => Except.error timeout_message
  | QueryOutcome.fail m => Except.error m

/-- The control flow of `executeTripQuery` around the two query attempts:
try the prepared statement; on any rejection, re-throw if the message
equals `timeout_check_message`, otherwise run the inline fallback (day-of-week
validation is modelled as passed, as the claim concerns valid inputs). -/
def executeTripQueryFlow (prepared fallback : QueryOutcome) :
    Except String (List TripResult) :=
  match executeQueryWithTimeout prepared with
  | Except.ok r => Except.ok r
  | Except.error e =>
      if e = timeout_check_message then Except.error e
      else executeQueryWithTimeout fallback

/-! ### Concrete fixtures -/

/-- Scenario A of the spec: legs A→B 08:00→08:30 and B→C 09:00→09:30,
all municipalities distinct. -/
def scenarioA_legs : List ServiceLeg :=
  [{ from_station_code := "A", to_station_code := "B",
     departure_time_tb := 480, arrival_time_tb := 510,
     from_municipality_sk := "mA", to_municipality_sk := "mB",
     from_province_sk := "pA", to_province_sk := "pB" },
   { from_station_code := "B", to_station_code := "C",
     departure_time_tb := 540, arrival_time_tb := 570,
     from_municipality_sk := "mB", to_municipality_sk := "mC",
     from_province_sk := "pB", to_province_sk := "pC" }]

def scenarioA_stations : List StationRow :=
  [{ station_code := "A", number_of_monuments := 1 },
   { station_code := "B", number_of_monuments := 2 },
   { station_code := "C", number_of_monuments := 3 }]

def scenarioA_query : TripQuery :=
  { input_day_of_week := 1, input_station_code := "A",
    input_hour_departure := 8, input_minute_departure := 0,
    input_to_station_code := "C", input_hour_arrival := 9,
    input_layover_time := 0, input_to_municipality_sk := "mC" }

/-- Scenario A with the second leg's departure moved into the 08:30 bucket
(depart 08:40, arrive 09:10), which does satisfy the bucket rule. -/
def scenarioA2_legs : List ServiceLeg :=
  [{ from_station_code := "A", to_station_code := "B",
     departure_time_tb := 480, arrival_time_tb := 510,
     from_municipality_sk := "mA", to_municipality_sk := "mB",
     from_province_sk := "pA", to_province_sk := "pB" },
   { from_station_code := "B", to_station_code := "C",
     departure_time_tb := 520, arrival_time_tb := 550,
     from_municipality_sk := "mB", to_municipality_sk := "mC",
     from_province_sk := "pB", to_province_sk := "pC" }]

/-- A leg A→B 08:00→08:30 that stays inside municipality m1. -/
def legAB_shared : ServiceLeg :=
  { from_station_code := "A", to_station_code := "B",
    departure_time_tb := 480, arrival_time_tb := 510,
    from_municipality_sk := "m1", to_municipality_sk := "m1",
    from_province_sk := "p1", to_province_sk := "p1" }

/-- A leg B→C 08:30→09:00 into the destination municipality m2. -/
def legBC_shared : ServiceLeg :=
  { from_station_code := "B", to_station_code := "C",
    departure_time_tb := 510, arrival_time_tb := 540,
    from_municipality_sk := "m1", to_municipality_sk := "m2",
    from_province_sk := "p1", to_province_sk := "p2" }

/-- A dataset whose first two stations share a municipality: A and B both lie
in municipality m1, the destination C lies in m2.  A→B 08:00→08:30,
B→C 08:30→09:00. -/
def sharedMuni_legs : List ServiceLeg := [legAB_shared, legBC_shared]

def sharedMuni_query : TripQuery :=
  { input_day_of_week := 1, input_station_code := "A",
    input_hour_departure := 8, input_minute_departure := 0,
    input_to_station_code := "C", input_hour_arrival := 9,
    input_layover_time := 0, input_to_municipality_sk := "m2" }

/-- Two parallel two-leg routes O→X→D and O→Y→D with pairwise distinct
municipalities and provinces, so both deduplicated paths have three distinct
provinces (a tie on `m_p`). -/
def twoRoutes_legs : List ServiceLeg :=
  [{ from_station_code := "O", to_station_code := "X",
     departure_time_tb := 480, arrival_time_tb := 510,
     from_municipality_sk := "mO", to_municipality_sk := "mX",
     from_province_sk := "pO", to_province_sk := "pX" },
   { from_station_code := "O", to_station_code := "Y",
     departure_time_tb := 480, arrival_time_tb := 510,
     from_municipality_sk := "mO", to_municipality_sk := "mY",
     from_province_sk := "pO", to_province_sk := "pY" },
   { from_station_code := "X", to_station_code := "D",
     departure_time_tb := 520, arrival_time_tb := 550,
     from_municipality_sk := "mX", to_municipality_sk := "mD",
     from_province_sk := "pX", to_province_sk := "pD" },
   { from_station_code := "Y", to_station_code := "D",
     departure_time_tb := 515, arrival_time_tb := 545,
     from_municipality_sk := "mY", to_municipality_sk := "mD",
     from_province_sk := "pY", to_province_sk := "pD" }]

def twoRoutes_stations : List StationRow :=
  [{ station_code := "O", number_of_monuments := 1 },
   { station_code := "X", number_of_monuments := 2 },
   { station_code := "Y", number_of_monuments := 4 },
   { station_code := "D", number_of_monuments := 3 }]

def twoRoutes_query : TripQuery :=
  { input_day_of_week := 1, input_station_code := "O",
    input_hour_departure := 8, input_minute_departure := 0,
    input_to_station_code := "D", input_hour_arrival := 9,
    input_layover_time := 0, input_to_municipality_sk := "mD" }

/-- The seed row produced by iteration 0 of `planning` on the shared
municipality dataset. -/
def rowAB_shared : PlanningRow :=
  { from_station_code := "A", to_station_code := "B", path := ["A", "B"],
    time_schedule := [480, 510], municipalities := ["m1", "m1"],
    provinces := ["p1", "p1"], travel_time := 30, departure_time_tb := 480,
    arrival_time_tb := 510, end_reached := 0, to_municipality_sk := "m1",
    number_of_monuments := 2 }

/-- The terminated row produced by iteration 1 of `planning` on the shared
municipality dataset. -/
def rowABC_plan : PlanningRow :=
  { from_station_code := "B", to_station_code := "C",
    path := ["A", "B", "C"], time_schedule := [480, 510, 510, 540],
    municipalities := ["m1", "m1", "m2"], provinces := ["p1", "p1", "p2"],
    travel_time := 60, departure_time_tb := 510, arrival_time_tb := 540,
    end_reached := 1, to_municipality_sk := "m1", number_of_monuments := 5 }

/-- The single output row of `get_trips_full` on the shared municipality
dataset. -/
def rowABC_shared : OptimalRow :=
  { path := ["A", "B", "C"], municipalities := ["m1", "m1", "m2"],
    time_schedule := [480, 510, 510, 540], travel_time := 60, m_p := 2,
    m_m := none, number_of_monuments := 5, no_overlaps := none }

/-- The single output row of `get_trips_full` on the corrected Scenario A
dataset. -/
def rowABC_A2 : OptimalRow :=
  { path := ["A", "B", "C"], municipalities := ["mA", "mB", "mC"],
    time_schedule := [480, 510, 520, 550], travel_time := 60, m_p := 3,
    m_m := none, number_of_monuments := 5, no_overlaps := none }

/-! ### Derived predicates used by the theorems -/

/-- `time_schedule` is a sequence of (departure, arrival) pairs each of whose
differences lies between 15 and 60 minutes. -/
def pairsOk : List Nat → Bool
  | [] => true
  | [_] => false
  | d :: a :: rest =>
      decide (15 ≤ (a : Int) - (d : Int)) && decide ((a : Int) - (d : Int) ≤ 60)
      && pairsOk rest

/-- Every entry of `l` from position 2 onwards differs from all earlier
entries (positions 0 and 1 — the origin and the first stop — are not
compared with each other). -/
def freshIdx (l : List String) : Prop :=
  ∀ j, 2 ≤ j → j < l.length → ∀ i, i < j → l.getD i "" ≠ l.getD j ""

def defaultDistinctPath : DistinctPath :=
  { path := [], travel_time := 0, time_schedule := [], municipalities := [],
    provinces := [], number_of_monuments := 0 }

def defaultOptimalRow : OptimalRow :=
  { path := [], municipalities := [], time_schedule := [], travel_time := 0,
    m_p := 0, m_m := none, number_of_monuments := 0, no_overlaps := none }

/-- The (travel_time, row number) lexicographic order used by `row_number()
OVER (... ORDER BY travel_time)` within one partition. -/
def entryLe (x y : Nat × PlanningRow) : Bool :=
  decide (x.2.travel_time < y.2.travel_time)
  || (x.2.travel_time == y.2.travel_time && decide (x.1 ≤ y.1))

/-- The inductive invariant of `planning` rows: the time schedule is a list
of (departure, arrival) pairs with leg travel times in [15, 60]; all
municipalities from position 2 onwards are fresh when the final one is
ignored; and for rows that are still extendable also including the
final one. -/
def RowInv (r : PlanningRow) : Prop :=
  pairsOk r.time_schedule = true
  ∧ freshIdx r.municipalities.dropLast
  ∧ (r.end_reached = 0 → freshIdx r.municipalities)

/-! ### Helper lemmas: indexed rows -/

theorem withIdx_snd_mem {α : Type} {l : List α} {n : Nat} {p : Nat × α}
    (h : p ∈ withIdx n l) : p.2 ∈ l := by
  induction l generalizing n with
  | nil => simp [withIdx] at h
  | cons x xs ih =>
      rw [withIdx] at h
      rcases List.mem_cons.mp h with h | h
      · rw [h]; simp
      · exact List.mem_cons_of_mem x (ih h)

theorem withIdx_fst_ge {α : Type} {l : List α} {n : Nat} {p : Nat × α}
    (h : p ∈ withIdx n l) : n ≤ p.1 := by
  induction l generalizing n with
  | nil => simp [withIdx] at h
  | cons x xs ih =>
      rw [withIdx] at h
      rcases List.mem_cons.mp h with h | h
      · rw [h]
      · exact Nat.le_of_succ_le (ih h)

theorem withIdx_mem_of_mem {α : Type} {l : List α} {a : α} (h : a ∈ l) :
    ∀ n, ∃ i, (i, a) ∈ withIdx n l := by
  induction l with
  | nil => simp at h
  | cons x xs ih =>
      intro n
      rcases List.mem_cons.mp h with h | h
      · rw [h, withIdx]
        exact ⟨n, List.mem_cons_self _ _⟩
      · obtain ⟨i, hi⟩ := ih h (n + 1)
        rw [withIdx]
        exact ⟨i, List.mem_cons_of_mem _ hi⟩

theorem withIdx_fst_inj {α : Type} {l : List α} {n i : Nat} {a b : α}
    (ha : (i, a) ∈ withIdx n l) (hb : (i, b) ∈ withIdx n l) : a = b := by
  induction l generalizing n with
  | nil => simp [withIdx] at ha
  | cons x xs ih =>
      rw [withIdx] at ha hb
      rcases List.mem_cons.mp ha with ha | ha <;> rcases List.mem_cons.mp hb with hb | hb
      · rw [Prod.mk.injEq] at ha hb
        rw [ha.2, hb.2]
      · rw [Prod.mk.injEq] at ha
        have := withIdx_fst_ge hb
        omega
      · rw [Prod.mk.injEq] at hb
        have := withIdx_fst_ge ha
        omega
      · exact ih ha hb

theorem withIdx_pairwise_lt {α : Type} (l : List α) :
    ∀ n, List.Pairwise (fun p q2 => p.1 < q2.1) (withIdx n l) := by
  induction l with
  | nil => intro n; simp [withIdx]
  | cons x xs ih =>
      intro n
      rw [withIdx]
      refine List.Pairwise.cons ?_ (ih (n + 1))
      intro p hp
      have := withIdx_fst_ge hp
      simp only
      omega

/-! ### Helper lemmas: minimum of a list under a total transitive Bool order -/

theorem exists_list_min {β : Type} (le : β → β → Bool)
    (htot : ∀ a b, le a b = true ∨ le b a = true)
    (htrans : ∀ a b c, le a b = true → le b c = true → le a c = true) :
    ∀ (l : List β), l ≠ [] → ∃ m ∈ l, ∀ y ∈ l, le m y = true := by
  intro l
  induction l with
  | nil => intro h; exact absurd rfl h
  | cons a t ih =>
      intro _
      by_cases ht : t = []
      · subst ht
        refine ⟨a, List.mem_cons_self _ _, ?_⟩
        intro y hy
        rcases List.mem_singleton.mp hy with rfl
        rcases htot y y with h | h <;> exact h
      · obtain ⟨m, hm, hmin⟩ := ih ht
        rcases htot a m with h | h
        · refine ⟨a, List.mem_cons_self _ _, ?_⟩
          intro y hy
          rcases List.mem_cons.mp hy with rfl | hy
          · rcases htot y y with h2 | h2 <;> exact h2
          · exact htrans a m y h (hmin y hy)
        · refine ⟨m, List.mem_cons_of_mem _ hm, ?_⟩
          intro y hy
          rcases List.mem_cons.mp hy with rfl | hy
          · exact h
          · exact hmin y hy

/-! ### Helper lemmas: pairsOk -/

theorem pairsOk_append {l1 l2 : List Nat} (h1 : pairsOk l1 = true)
    (h2 : pairsOk l2 = true) : pairsOk (l1 ++ l2) = true := by
  induction l1 using pairsOk.induct with
  | case1 => simpa using h2
  | case2 x => simp [pairsOk] at h1
  | case3 d a rest ih =>
      rw [pairsOk, Bool.and_eq_true, Bool.and_eq_true] at h1
      rw [List.cons_append, List.cons_append, pairsOk, Bool.and_eq_true,
        Bool.and_eq_true]
      exact ⟨⟨h1.1.1, h1.1.2⟩, ih h1.2⟩

theorem pairsOk_pair {d a : Nat} (h1 : 15 ≤ (a : Int) - (d : Int))
    (h2 : (a : Int) - (d : Int) ≤ 60) : pairsOk [d, a] = true := by
  rw [pairsOk]
  simp [h1, h2, pairsOk]

/-! ### Helper lemmas: freshIdx -/

theorem freshIdx_short {l : List String} (h : l.length ≤ 2) : freshIdx l := by
  intro j h2 hj
  omega

theorem freshIdx_append {l : List String} {m : String} (hl : freshIdx l)
    (hm : m ∉ l) : freshIdx (l ++ [m]) := by
  intro j h2 hj i hij
  rw [List.length_append, List.length_singleton] at hj
  by_cases hjl : j < l.length
  · rw [List.getD_append _ _ _ _ hjl, List.getD_append _ _ _ _ (by omega)]
    exact hl j h2 hjl i hij
  · have hje : j = l.length := by omega
    rw [hje, List.getD_append_right _ _ _ _ (Nat.le_refl _), Nat.sub_self,
      List.getD_append _ _ _ _ (by omega)]
    intro hcon
    rw [List.getD_cons_zero] at hcon
    apply hm
    rw [← hcon]
    rw [List.getD_eq_getElem _ _ (by omega)]
    exact List.getElem_mem _

/-! ### Membership characterizations of the query stages -/

theorem mem_if_nil {α : Type} {c : Bool} {xs : List α} {a : α} :
    a ∈ (if c then xs else []) ↔ c = true ∧ a ∈ xs := by
  cases c <;> simp

theorem mem_train_schedule {legs : List ServiceLeg} {q : TripQuery}
    {s : SchedLeg} :
    s ∈ train_schedule legs q ↔
      (∃ l ∈ legs, s = mkSched l)
      ∧ ¬(s.to_municipality_sk = q.input_to_municipality_sk
          ∧ s.to_station_code ≠ q.input_to_station_code)
      ∧ 15 ≤ s.travel_time ∧ s.travel_time ≤ 60 := by
  rw [train_schedule, List.mem_filter, List.mem_map]
  simp only [Bool.and_eq_true, decide_eq_true_eq, Bool.not_eq_true',
    Bool.and_eq_false_iff, beq_eq_false_iff_ne, ne_eq, bne_eq_false_iff_eq,
    beq_iff_eq]
  constructor
  · intro h
    obtain ⟨⟨l, hl, hls⟩, hcond⟩ := h
    refine ⟨⟨l, hl, hls.symm⟩, ?_, hcond.1.2, hcond.2⟩
    have := hcond.1.1
    tauto
  · intro h
    obtain ⟨⟨l, hl, hls⟩, hmun, h15, h60⟩ := h
    refine ⟨⟨l, hl, hls.symm⟩, ⟨?_, h15⟩, h60⟩
    tauto

theorem mem_planning_seed {ts : List SchedLeg} {st : List StationRow}
    {q : TripQuery} {r : PlanningRow} :
    r ∈ planning_seed ts st q ↔
      ∃ l ∈ ts, seedCond q l = true
        ∧ ∃ s ∈ st, s.station_code = l.to_station_code ∧ r = mkSeedRow l s := by
  rw [planning_seed]
  simp only [List.mem_flatMap, mem_if_nil, List.mem_map, List.mem_filter,
    beq_iff_eq]
  constructor
  · rintro ⟨l, hl, hc, s, ⟨hs, hcode⟩, hr⟩
    exact ⟨l, hl, hc, s, hs, hcode, hr.symm⟩
  · rintro ⟨l, hl, hc, s, hs, hcode, hr⟩
    exact ⟨l, hl, hc, s, ⟨hs, hcode⟩, hr.symm⟩

theorem mem_extOf {q : TripQuery} {st : List StationRow} {p : PlanningRow}
    {l : SchedLeg} {r : PlanningRow} :
    r ∈ extOf q st p l ↔
      joinWhere q p l = true
        ∧ ∃ s ∈ st, s.station_code = l.to_station_code ∧ r = mkPlanRow p l s := by
  rw [extOf]
  rw [show (if joinWhere q p l
      then ((st.filter fun s => s.station_code == l.to_station_code).map
              (mkPlanRow p l))
      else []) = (if (joinWhere q p l : Bool)
      then ((st.filter fun s => s.station_code == l.to_station_code).map
              (mkPlanRow p l))
      else ([] : List PlanningRow)) from rfl]
  rw [mem_if_nil]
  simp only [List.mem_map, List.mem_filter, beq_iff_eq]
  constructor
  · rintro ⟨hj, s, ⟨hs, hcode⟩, hr⟩
    exact ⟨hj, s, hs, hcode, hr.symm⟩
  · rintro ⟨hj, s, hs, hcode, hr⟩
    exact ⟨hj, s, ⟨hs, hcode⟩, hr.symm⟩

theorem mem_planning_raw {q : TripQuery} {ts : List SchedLeg}
    {st : List StationRow} {prev : List PlanningRow} {r : PlanningRow} :
    r ∈ planning_raw q ts st prev ↔
      ∃ p ∈ prev, ∃ l ∈ ts, r ∈ extOf q st p l := by
  rw [planning_raw]
  simp only [List.mem_flatMap]

theorem contains_iff_mem_str {l : List String} {a : String} :
    l.contains a = true ↔ a ∈ l :=
  List.elem_iff

theorem contains_eq_false_iff_str {l : List String} {a : String} :
    l.contains a = false ↔ a ∉ l := by
  rw [Bool.eq_false_iff, Ne, contains_iff_mem_str]

theorem joinWhere_iff {q : TripQuery} {p : PlanningRow} {l : SchedLeg} :
    joinWhere q p l = true ↔
      p.to_station_code = l.from_station_code
      ∧ bucket15 (p.arrival_time_tb + 60 * q.input_layover_time)
          = bucket15 l.departure_time_tb
      ∧ ((l.to_municipality_sk ∉ p.municipalities
            ∧ l.to_municipality_sk ≠ q.input_to_municipality_sk)
          ∨ (l.to_station_code = q.input_to_station_code
              ∧ hourOf l.arrival_time_tb = q.input_hour_arrival))
      ∧ p.end_reached = 0 := by
  rw [joinWhere]
  simp only [Bool.and_eq_true, Bool.or_eq_true, Bool.not_eq_true',
    beq_iff_eq, bne_iff_ne, ne_eq, contains_eq_false_iff_str]
  tauto

theorem travel_eq_of_mem_ts {legs : List ServiceLeg} {q : TripQuery}
    {s : SchedLeg} (h : s ∈ train_schedule legs q) :
    s.travel_time = (s.arrival_time_tb : Int) - (s.departure_time_tb : Int) := by
  obtain ⟨⟨l, _, rfl⟩, _⟩ := mem_train_schedule.mp h
  rfl

theorem seedCond_iff {q : TripQuery} {l : SchedLeg} :
    seedCond q l = true ↔
      l.from_station_code = q.input_station_code
      ∧ hourOf l.departure_time_tb = q.input_hour_departure
      ∧ minuteOf l.departure_time_tb = q.input_minute_departure
      ∧ l.to_station_code ≠ q.input_to_station_code := by
  rw [seedCond]
  simp only [Bool.and_eq_true, beq_iff_eq, bne_iff_ne, ne_eq]
  tauto

theorem mem_planning_next {q : TripQuery} {ts : List SchedLeg}
    {st : List StationRow} {prev : List PlanningRow} {r : PlanningRow} :
    r ∈ planning_next q ts st prev ↔
      ∃ r0 ∈ planning_raw q ts st prev,
        r = { r0 with end_reached :=
                if (planning_raw q ts st prev).any (isTermB q) then 1 else 0 } := by
  rw [planning_next]
  simp only [List.mem_map]
  constructor <;> rintro ⟨r0, h0, hr⟩ <;> exact ⟨r0, h0, hr.symm⟩

theorem isTermB_update {q : TripQuery} {r : PlanningRow} {f : Nat} :
    isTermB q { r with end_reached := f } = isTermB q r :=
  rfl

theorem planning_next_term_all {q : TripQuery} {ts : List SchedLeg}
    {st : List StationRow} {prev : List PlanningRow}
    (h : ∃ r ∈ planning_next q ts st prev, isTermB q r = true) :
    ∀ r ∈ planning_next q ts st prev, r.end_reached = 1 := by
  obtain ⟨r, hr, ht⟩ := h
  obtain ⟨r0, h0, rfl⟩ := mem_planning_next.mp hr
  rw [isTermB_update] at ht
  have hany : (planning_raw q ts st prev).any (isTermB q) = true :=
    List.any_eq_true.mpr ⟨r0, h0, ht⟩
  intro r2 hr2
  obtain ⟨r1, h1, rfl⟩ := mem_planning_next.mp hr2
  simp [hany]

theorem planning_next_of_all_one {q : TripQuery} {ts : List SchedLeg}
    {st : List StationRow} {prev : List PlanningRow}
    (h : ∀ r ∈ prev, r.end_reached = 1) :
    planning_next q ts st prev = [] := by
  have hraw : planning_raw q ts st prev = [] := by
    rw [planning_raw, List.flatMap_eq_nil_iff]
    intro p hp
    rw [List.flatMap_eq_nil_iff]
    intro l _
    have hjw : joinWhere q p l = false := by
      rw [Bool.eq_false_iff]
      intro hj
      have h0 := (joinWhere_iff.mp hj).2.2.2
      have h1 := h p hp
      omega
    rw [extOf, hjw]
    rfl
  rw [planning_next, hraw]
  rfl

/-! ### The planning invariant -/

theorem planning_step_inv (legs : List ServiceLeg) (st : List StationRow)
    (q : TripQuery) : ∀ n, ∀ r ∈ planning_step legs st q n, RowInv r := by
  intro n
  induction n with
  | zero =>
      intro r hr
      rw [planning_step] at hr
      obtain ⟨l, hl, _, s, _, _, rfl⟩ := mem_planning_seed.mp hr
      have htr := travel_eq_of_mem_ts hl
      have hb := (mem_train_schedule.mp hl).2.2
      refine ⟨?_, ?_, ?_⟩
      · show pairsOk [l.departure_time_tb, l.arrival_time_tb] = true
        exact pairsOk_pair (htr ▸ hb.1) (htr ▸ hb.2)
      · exact freshIdx_short (by simp [mkSeedRow])
      · intro _
        exact freshIdx_short (by simp [mkSeedRow])
  | succ n ih =>
      intro r hr
      rw [planning_step] at hr
      obtain ⟨r0, h0, rfl⟩ := mem_planning_next.mp hr
      obtain ⟨p, hp, l, hl, hext⟩ := mem_planning_raw.mp h0
      obtain ⟨hjw, s, _, _, rfl⟩ := mem_extOf.mp hext
      have hP := ih p hp
      have hjw2 := joinWhere_iff.mp hjw
      have hp0 : p.end_reached = 0 := hjw2.2.2.2
      have hfreshP : freshIdx p.municipalities := hP.2.2 hp0
      have htr := travel_eq_of_mem_ts hl
      have hb := (mem_train_schedule.mp hl).2.2
      refine ⟨?_, ?_, ?_⟩
      · show pairsOk
          (p.time_schedule ++ [l.departure_time_tb, l.arrival_time_tb]) = true
        exact pairsOk_append hP.1 (pairsOk_pair (htr ▸ hb.1) (htr ▸ hb.2))
      · show freshIdx (p.municipalities ++ [l.to_municipality_sk]).dropLast
        rw [List.dropLast_concat]
        exact hfreshP
      · intro hz
        show freshIdx (p.municipalities ++ [l.to_municipality_sk])
        cases hF : (planning_raw q (train_schedule legs q) st
            (planning_step legs st q n)).any (isTermB q) with
        | true =>
            rw [hF] at hz
            have hone : (1 : Nat) = 0 := hz
            omega
        | false =>
            have hterm : isTermB q (mkPlanRow p l s) = false :=
              Bool.eq_false_iff.mpr (List.any_eq_false.mp hF _ h0)
            have hnotmem : l.to_municipality_sk ∉ p.municipalities := by
              rcases hjw2.2.2.1 with ⟨hnm, _⟩ | hbb
              · exact hnm
              · exfalso
                have : isTermB q (mkPlanRow p l s) = true := by
                  show (l.to_station_code == q.input_to_station_code
                    && (hourOf l.arrival_time_tb == q.input_hour_arrival)) = true
                  simp [hbb.1, hbb.2]
                rw [this] at hterm
                simp at hterm
            exact freshIdx_append hfreshP hnotmem

theorem planning_inv {legs : List ServiceLeg} {st : List StationRow}
    {q : TripQuery} {fuel : Nat} {r : PlanningRow}
    (h : r ∈ planning legs st q fuel) : RowInv r := by
  rw [planning, List.mem_flatMap] at h
  obtain ⟨n, _, hn⟩ := h
  exact planning_step_inv legs st q n r hn

/-! ### Lemmas about the QUALIFY deduplication -/

theorem lexKeepB_eq_or {p q2 : Nat × PlanningRow} :
    lexKeepB p q2
      = ((!(sortKey p.2.path == sortKey q2.2.path)) || entryLe p q2) := by
  rw [lexKeepB, entryLe, Bool.or_assoc]

theorem entryLe_iff {x y : Nat × PlanningRow} :
    entryLe x y = true ↔
      (x.2.travel_time < y.2.travel_time
        ∨ (x.2.travel_time = y.2.travel_time ∧ x.1 ≤ y.1)) := by
  rw [entryLe]
  simp only [Bool.or_eq_true, Bool.and_eq_true, decide_eq_true_eq, beq_iff_eq]

theorem lexKeepB_iff {p q2 : Nat × PlanningRow} :
    lexKeepB p q2 = true ↔
      (sortKey p.2.path = sortKey q2.2.path →
        (p.2.travel_time < q2.2.travel_time
          ∨ (p.2.travel_time = q2.2.travel_time ∧ p.1 ≤ q2.1))) := by
  rw [lexKeepB_eq_or]
  simp only [Bool.or_eq_true, Bool.not_eq_true', beq_eq_false_iff_ne, ne_eq]
  rw [entryLe_iff]
  tauto

theorem entryLe_total (x y : Nat × PlanningRow) :
    entryLe x y = true ∨ entryLe y x = true := by
  rw [entryLe_iff, entryLe_iff]
  omega

theorem entryLe_trans (x y z : Nat × PlanningRow)
    (h1 : entryLe x y = true) (h2 : entryLe y z = true) :
    entryLe x z = true := by
  rw [entryLe_iff] at h1 h2 ⊢
  omega

theorem mem_qualifyFirst {rows : List PlanningRow} {r : PlanningRow} :
    r ∈ qualifyFirst rows ↔
      ∃ i, (i, r) ∈ withIdx 0 rows ∧ keptB rows (i, r) = true := by
  rw [qualifyFirst]
  simp only [List.mem_map, List.mem_filter]
  constructor
  · rintro ⟨p, ⟨hp, hk⟩, rfl⟩
    exact ⟨p.1, hp, hk⟩
  · rintro ⟨i, hi, hk⟩
    exact ⟨(i, r), ⟨hi, hk⟩, rfl⟩

theorem qualifyFirst_subset {rows : List PlanningRow} {r : PlanningRow}
    (h : r ∈ qualifyFirst rows) : r ∈ rows := by
  obtain ⟨i, hi, _⟩ := mem_qualifyFirst.mp h
  exact withIdx_snd_mem hi

theorem qualifyFirst_min {rows : List PlanningRow} {r : PlanningRow}
    (h : r ∈ qualifyFirst rows) :
    ∀ p ∈ rows, sortKey p.path = sortKey r.path →
      r.travel_time ≤ p.travel_time := by
  obtain ⟨i, hi, hk⟩ := mem_qualifyFirst.mp h
  intro p hp hkey
  obtain ⟨j, hj⟩ := withIdx_mem_of_mem hp 0
  rw [keptB, List.all_eq_true] at hk
  have := lexKeepB_iff.mp (hk (j, p) hj) hkey.symm
  dsimp only at this
  omega

theorem qualifyFirst_first_seen {rows : List PlanningRow} {i j : Nat}
    {r p : PlanningRow} (_hi : (i, r) ∈ withIdx 0 rows)
    (hk : keptB rows (i, r) = true) (hj : (j, p) ∈ withIdx 0 rows)
    (hkey : sortKey p.path = sortKey r.path)
    (htv : p.travel_time = r.travel_time) : i ≤ j := by
  rw [keptB, List.all_eq_true] at hk
  have := lexKeepB_iff.mp (hk (j, p) hj) hkey.symm
  dsimp only at this
  omega

theorem qualifyFirst_complete {rows : List PlanningRow} {p : PlanningRow}
    (hp : p ∈ rows) :
    ∃ r ∈ qualifyFirst rows, sortKey r.path = sortKey p.path := by
  obtain ⟨j, hj⟩ := withIdx_mem_of_mem hp 0
  have hjG : (j, p) ∈ (withIdx 0 rows).filter
      (fun q2 => sortKey q2.2.path == sortKey p.path) :=
    List.mem_filter.mpr ⟨hj, by simp⟩
  obtain ⟨m, hmG, hmin⟩ := exists_list_min entryLe entryLe_total entryLe_trans
    _ (List.ne_nil_of_mem hjG)
  have hmW : m ∈ withIdx 0 rows := (List.mem_filter.mp hmG).1
  have hmkey : sortKey m.2.path = sortKey p.path := by
    have := (List.mem_filter.mp hmG).2
    simpa using this
  have hkept : keptB rows m = true := by
    rw [keptB, List.all_eq_true]
    intro q2 hq2
    rw [lexKeepB_eq_or, Bool.or_eq_true]
    by_cases hkq : sortKey q2.2.path = sortKey m.2.path
    · right
      refine hmin q2 (List.mem_filter.mpr ⟨hq2, ?_⟩)
      simp [hkq, hmkey]
    · left
      simp only [Bool.not_eq_true', beq_eq_false_iff_ne, ne_eq]
      intro hc
      exact hkq (hc.symm)
  refine ⟨m.2, mem_qualifyFirst.mpr ⟨m.1, ?_, hkept⟩, hmkey⟩
  exact hmW

theorem qualifyFirst_pairwise (rows : List PlanningRow) :
    List.Pairwise (fun a b => sortKey a.path ≠ sortKey b.path)
      (qualifyFirst rows) := by
  rw [qualifyFirst, List.pairwise_map]
  have hpw := (withIdx_pairwise_lt rows 0).filter (keptB rows)
  refine List.Pairwise.imp_of_mem ?_ hpw
  intro a b ha hb hlt hkey
  have hka := (List.mem_filter.mp ha).2
  have hkb := (List.mem_filter.mp hb).2
  have hain := (List.mem_filter.mp ha).1
  have hbin := (List.mem_filter.mp hb).1
  rw [keptB, List.all_eq_true] at hka hkb
  have h1 := lexKeepB_iff.mp (hka b hbin) hkey
  have h2 := lexKeepB_iff.mp (hkb a hain) hkey.symm
  omega

/-! ### Lemmas about the ranking pass -/

theorem optimal_rows_map_path (ds : List DistinctPath) :
    ∀ acc, (optimal_rows acc ds).map (fun r => r.path)
      = ds.map (fun d => d.path) := by
  induction ds with
  | nil => intro acc; rfl
  | cons d rest ih =>
      intro acc
      simp only [optimal_rows, List.map_cons, ih]
      rfl

theorem mem_optimal_rows {r : OptimalRow} :
    ∀ (ds : List DistinctPath) (acc), r ∈ optimal_rows acc ds →
      ∃ d ∈ ds, r.path = d.path ∧ r.time_schedule = d.time_schedule
        ∧ r.municipalities = d.municipalities
        ∧ r.travel_time = d.travel_time := by
  intro ds
  induction ds with
  | nil =>
      intro acc h
      simp [optimal_rows] at h
  | cons d rest ih =>
      intro acc h
      rw [optimal_rows] at h
      rcases List.mem_cons.mp h with h | h
      · refine ⟨d, List.mem_cons_self _ _, ?_, ?_, ?_, ?_⟩ <;> rw [h] <;> rfl
      · obtain ⟨d2, hd2, hf⟩ := ih (acc ++ [d.municipalities]) h
        exact ⟨d2, List.mem_cons_of_mem _ hd2, hf⟩

theorem optimal_rows_getD :
    ∀ (ds : List DistinctPath) (acc : List (List String)) (j : Nat),
      j < ds.length →
      (optimal_rows acc ds).getD j defaultOptimalRow
        = mkOptimal (acc ++ (ds.take j).map (fun d => d.municipalities))
            (ds.getD j defaultDistinctPath) := by
  intro ds
  induction ds with
  | nil =>
      intro acc j h
      simp at h
  | cons d rest ih =>
      intro acc j hj
      cases j with
      | zero =>
          simp [optimal_rows]
      | succ j =>
          rw [optimal_rows, List.getD_cons_succ, List.getD_cons_succ,
            List.take_succ_cons]
          rw [ih (acc ++ [d.municipalities]) j (by simpa using hj)]
          simp [List.append_assoc]

/-- Trace an output row of the post-planning pipeline back to the planning
row it came from: same path, time schedule, municipalities and travel time,
and the originating row was terminated. -/
theorem mem_trips_pipeline {rows : List PlanningRow} {q : TripQuery}
    {r : OptimalRow} (h : r ∈ trips_pipeline rows q) :
    ∃ p ∈ rows, isTermB q p = true ∧ r.path = p.path
      ∧ r.time_schedule = p.time_schedule
      ∧ r.municipalities = p.municipalities
      ∧ r.travel_time = p.travel_time := by
  rw [trips_pipeline, List.mem_insertionSort, optimal_paths] at h
  obtain ⟨d, hd, hf⟩ := mem_optimal_rows _ _ h
  rw [List.mem_insertionSort, distinct_paths] at hd
  obtain ⟨p0, hp0, rfl⟩ := List.mem_map.mp hd
  have hp1 := List.mem_filter.mp (qualifyFirst_subset hp0)
  exact ⟨p0, hp1.1, hp1.2, hf.1, hf.2.1, hf.2.2.1, hf.2.2.2⟩

/-! ### Stabilisation of the recursive CTE -/

theorem planning_next_nil (q : TripQuery) (ts : List SchedLeg)
    (st : List StationRow) : planning_next q ts st [] = [] := rfl

theorem planning_step_stable (legs : List ServiceLeg) (st : List StationRow)
    (q : TripQuery) (k : Nat) (hk : planning_step legs st q k = []) :
    ∀ n, k ≤ n → planning_step legs st q n = [] := by
  intro n hn
  induction n, hn using Nat.le_induction with
  | base => exact hk
  | succ n hn ih =>
      rw [planning_step, ih]
      exact planning_next_nil _ _ _

theorem planning_stable (legs : List ServiceLeg) (st : List StationRow)
    (q : TripQuery) (k : Nat) (hk : planning_step legs st q k = []) :
    ∀ fuel, k ≤ fuel → planning legs st q fuel = planning legs st q k := by
  intro fuel hf
  induction fuel, hf using Nat.le_induction with
  | base => rfl
  | succ n hn ih =>
      rw [planning, List.range_succ, List.flatMap_append, ← planning, ih]
      simp [planning_step_stable legs st q k hk n hn]

/-- The sorted-path keys of the final output are pairwise distinct: the
pairwise-distinct keys of the QUALIFY stage survive the ranking pass (which
preserves paths positionally) and both sorts (permutations). -/
theorem get_trips_pairwise_keys (legs : List ServiceLeg)
    (st : List StationRow) (q : TripQuery) (fuel : Nat) :
    List.Pairwise (fun a b => sortKey a.path ≠ sortKey b.path)
      (get_trips legs st q fuel) := by
  have h1 : List.Pairwise
      (fun (a b : PlanningRow) => sortKey a.path ≠ sortKey b.path)
      (qualifyFirst ((planning legs st q fuel).filter (isTermB q))) :=
    qualifyFirst_pairwise _
  have h2 : List.Pairwise
      (fun (a b : DistinctPath) => sortKey a.path ≠ sortKey b.path)
      (distinct_paths (planning legs st q fuel) q) := by
    rw [distinct_paths, List.pairwise_map]
    exact h1
  have h3 : List.Pairwise
      (fun (a b : DistinctPath) => sortKey a.path ≠ sortKey b.path)
      (List.insertionSort provGe (distinct_paths (planning legs st q fuel) q)) :=
    ((List.perm_insertionSort provGe _).pairwise_iff
      (fun h => Ne.symm h)).mpr h2
  have h4 : List.Pairwise
      (fun (a b : OptimalRow) => sortKey a.path ≠ sortKey b.path)
      (optimal_paths (distinct_paths (planning legs st q fuel) q)) := by
    rw [optimal_paths]
    have base : List.Pairwise
        (fun (a b : List String) => sortKey a ≠ sortKey b)
        ((List.insertionSort provGe
            (distinct_paths (planning legs st q fuel) q)).map
          (fun d => d.path)) :=
      List.pairwise_map.mpr h3
    rw [← optimal_rows_map_path _ []] at base
    exact (@List.pairwise_map OptimalRow (List String) (fun r => r.path)
      (fun a b => sortKey a ≠ sortKey b) _).mp base
  have h5 : List.Pairwise
      (fun (a b : OptimalRow) => sortKey a.path ≠ sortKey b.path)
      (get_trips_full legs st q fuel) := by
    rw [get_trips_full, trips_pipeline]
    exact ((List.perm_insertionSort finalLe _).pairwise_iff
      (fun h => Ne.symm h)).mpr h4
  rw [get_trips, List.pairwise_map]
  exact h5

/-! ### The claims -/

/-- Claim C1: `executeTripQuery` supplies 9 arguments (including a
minute-arrival argument) to `get_trips` in both the prepared-statement SQL
and the inline fallback SQL, while the macro is declared with only 8
parameters and no minute-arrival parameter; hence neither invocation binds,
and with both attempts rejecting, every query evaluation surfaces an error
rather than a trip list. -/
theorem C1_get_trips_arity :
    get_trips_param_names.length = 8
    ∧ "input_minute_arrival" ∉ get_trips_param_names
    ∧ prepared_call_args.length = 9
    ∧ "input_minute_arrival" ∈ prepared_call_args
    ∧ inline_call_args.length = 9
    ∧ invocationBinds prepared_call_args = false
    ∧ invocationBinds inline_call_args = false
    ∧ (∀ m1 m2 : String, ∃ e, executeTripQueryFlow (QueryOutcome.fail m1)
        (QueryOutcome.fail m2) = Except.error e) := by
  refine ⟨by decide, by decide, by decide, by decide, by decide, by decide,
    by decide, ?_⟩
  intro m1 m2
  by_cases h : m1 = timeout_check_message
  · exact ⟨m1, by simp [executeTripQueryFlow, executeQueryWithTimeout, h]⟩
  · exact ⟨m2, by simp [executeTripQueryFlow, executeQueryWithTimeout, h]⟩

/-- Claim C10 (code bug): the timeout wrapper rejects with a message whose
first letter is lower case while the catch block compares against the same
words with a capital U; the comparison therefore never matches, so after a
timeout of the prepared statement the inline fallback is executed — the
timed-out search is re-executed rather than aborted.  The last conjunct
evaluates the flow at the failing input: a prepared-statement timeout
followed by a fallback result is returned as a success. -/
theorem C10_timeout_reexecution :
    timeout_message ≠ timeout_check_message
    ∧ (∀ fb, executeTripQueryFlow QueryOutcome.timeout fb
        = executeQueryWithTimeout fb)
    ∧ executeTripQueryFlow QueryOutcome.timeout (QueryOutcome.ok [])
        = Except.ok [] := by
  refine ⟨by decide, ?_, ?_⟩
  · intro fb
    show (if timeout_message = timeout_check_message
        then Except.error timeout_message
        else executeQueryWithTimeout fb) = executeQueryWithTimeout fb
    rw [if_neg (by decide)]
  · show (if timeout_message = timeout_check_message
        then Except.error timeout_message
        else executeQueryWithTimeout (QueryOutcome.ok []))
      = Except.ok []
    rw [if_neg (by decide)]
    rfl

/-- Claim C2 counterexample: on the exact Scenario A fixture (B→C departs
09:00) the search returns no results at every recursion depth — iteration 1
is already empty because `time_bucket` of 08:30 + 0 hours is 08:30 while
`time_bucket` of the 09:00 departure is 09:00.  The claim asserts exactly
one result `[A, B, C]`. -/
theorem C2_scenarioA_cex :
    get_trips scenarioA_legs scenarioA_stations scenarioA_query 4 = []
    ∧ planning_step scenarioA_legs scenarioA_stations scenarioA_query 1 = []
    ∧ bucket15 (510 + 60 * 0) = 510 ∧ bucket15 540 = 540 := by
  exact ⟨by decide, by decide, by decide, by decide⟩

/-- Claim C2 (amended): on the Scenario A fixture as stated the bucket
condition between the 08:30 arrival (plus zero layover) and the 09:00
departure fails, so the search returns no results; after moving the B→C
departure into the 08:30 bucket (depart 08:40, arrive 09:10) the search
returns exactly one result, the path `[A, B, C]` with cumulative
`travel_time` 60. -/
theorem C2_scenarioA_amended (fuel : Nat) (h2 : 2 ≤ fuel) :
    get_trips scenarioA_legs scenarioA_stations scenarioA_query fuel = []
    ∧ (get_trips_full scenarioA2_legs scenarioA_stations
          scenarioA_query fuel).map (fun r => (r.path, r.travel_time))
        = [(["A", "B", "C"], (60 : Int))]
    ∧ get_trips scenarioA2_legs scenarioA_stations scenarioA_query fuel
        = [{ path := ["A", "B", "C"], time_schedule := [480, 510, 520, 550],
             no_overlaps := none }] := by
  have e1 : planning scenarioA_legs scenarioA_stations scenarioA_query fuel
      = planning scenarioA_legs scenarioA_stations scenarioA_query 1 :=
    planning_stable _ _ _ 1 (by decide) fuel (by omega)
  have e2 : planning scenarioA2_legs scenarioA_stations scenarioA_query fuel
      = planning scenarioA2_legs scenarioA_stations scenarioA_query 2 :=
    planning_stable _ _ _ 2 (by decide) fuel h2
  refine ⟨?_, ?_, ?_⟩
  · rw [get_trips, get_trips_full, e1]
    decide
  · rw [get_trips_full, e2]
    decide
  · rw [get_trips, get_trips_full, e2]
    decide

/-- Witness for the amended C2 at recursion depth 3. -/
theorem C2_scenarioA_amended_wit :
    get_trips scenarioA_legs scenarioA_stations scenarioA_query 3 = []
    ∧ (get_trips_full scenarioA2_legs scenarioA_stations
          scenarioA_query 3).map (fun r => (r.path, r.travel_time))
        = [(["A", "B", "C"], (60 : Int))]
    ∧ get_trips scenarioA2_legs scenarioA_stations scenarioA_query 3
        = [{ path := ["A", "B", "C"], time_schedule := [480, 510, 520, 550],
             no_overlaps := none }] :=
  C2_scenarioA_amended 3 (by decide)

/-- Claim C3: every row produced by the recursive arm extends some
previous-iteration row `p` by a schedule leg `l` whose 15-minute departure
bucket equals the bucket of `p`'s arrival time plus the layover hours; and a
(row, leg) pair whose buckets differ — by one 15-minute increment or any
other amount — contributes no extension at all. -/
theorem C3_bucket_compatibility (q : TripQuery) (ts : List SchedLeg)
    (st : List StationRow) (prev : List PlanningRow) :
    (∀ r ∈ planning_raw q ts st prev, ∃ p ∈ prev, ∃ l ∈ ts,
        r ∈ extOf q st p l
        ∧ bucket15 (p.arrival_time_tb + 60 * q.input_layover_time)
            = bucket15 l.departure_time_tb)
    ∧ (∀ (p : PlanningRow) (l : SchedLeg),
        bucket15 (p.arrival_time_tb + 60 * q.input_layover_time)
            ≠ bucket15 l.departure_time_tb →
        extOf q st p l = []) := by
  constructor
  · intro r hr
    obtain ⟨p, hp, l, hl, hext⟩ := mem_planning_raw.mp hr
    exact ⟨p, hp, l, hl, hext,
      (joinWhere_iff.mp (mem_extOf.mp hext).1).2.1⟩
  · intro p l hne
    have hjw : joinWhere q p l = false := by
      rw [Bool.eq_false_iff]
      intro hj
      exact hne (joinWhere_iff.mp hj).2.1
    rw [extOf, hjw]
    rfl

/-- Witness for C3: the A→B leg departs at 08:00, outside the 08:30 bucket
of the A→B seed row's arrival plus zero layover, so it yields no
extension. -/
theorem C3_bucket_compatibility_wit :
    extOf sharedMuni_query scenarioA_stations rowAB_shared
      (mkSched legAB_shared) = [] :=
  (C3_bucket_compatibility sharedMuni_query
    (train_schedule sharedMuni_legs sharedMuni_query) scenarioA_stations
    [rowAB_shared]).2 rowAB_shared (mkSched legAB_shared) (by decide)

/-- Claim C4: `train_schedule` retains a leg exactly when its derived
travel time lies in [15, 60] and it does not land in the destination
municipality at a non-destination station; consequently, in every row the
query returns, each constituent leg recorded in `time_schedule` has a
travel time between 15 and 60 minutes. -/
theorem C4_leg_legality :
    (∀ (legs : List ServiceLeg) (q : TripQuery) (s : SchedLeg),
        s ∈ train_schedule legs q ↔
          (∃ l ∈ legs, s = mkSched l)
          ∧ ¬(s.to_municipality_sk = q.input_to_municipality_sk
              ∧ s.to_station_code ≠ q.input_to_station_code)
          ∧ 15 ≤ s.travel_time ∧ s.travel_time ≤ 60)
    ∧ (∀ (legs : List ServiceLeg) (st : List StationRow) (q : TripQuery)
        (fuel : Nat) (r : OptimalRow),
        r ∈ get_trips_full legs st q fuel →
        pairsOk r.time_schedule = true) := by
  constructor
  · intro legs q s
    exact mem_train_schedule
  · intro legs st q fuel r hr
    rw [get_trips_full] at hr
    obtain ⟨p, hp, _, _, hts, _, _⟩ := mem_trips_pipeline hr
    rw [hts]
    exact (planning_inv hp).1

/-- Witness for C4 on the corrected Scenario A output row. -/
theorem C4_leg_legality_wit : pairsOk rowABC_A2.time_schedule = true :=
  C4_leg_legality.2 scenarioA2_legs scenarioA_stations scenarioA_query 4
    rowABC_A2 (by decide)

/-- Claim C5 counterexample: on the shared-municipality fixture the returned
path `[A, B, C]` has municipality sequence `[m1, m1, m2]`, whose prefix of
all-but-the-final-stop `[m1, m1]` contains a repeated municipality — the
seed step never compares the origin's municipality with the first stop's.
The claim asserts no returned path repeats a municipality among all but its
final stop. -/
theorem C5_no_repeat_cex :
    (get_trips_full sharedMuni_legs scenarioA_stations
        sharedMuni_query 4).map (fun r => r.municipalities)
      = [["m1", "m1", "m2"]]
    ∧ ¬ (["m1", "m1", "m2"] : List String).dropLast.Nodup
    ∧ planning_step sharedMuni_legs scenarioA_stations sharedMuni_query 2
        = [] := by
  exact ⟨by decide, by decide, by decide⟩

/-- Claim C5 (amended): an extension is produced only if the new
municipality is absent from the whole municipality list of the extended row
(which implies the claim's condition on all but its final entry) and differs
from the destination municipality, or the leg is terminal; consequently, in
every returned row, among the municipalities of all but the final stop only
the first two (origin and first stop, never compared by the seed step) can
coincide — every entry from position 2 on is distinct from all entries
before it. -/
theorem C5_no_repeat_amended :
    (∀ (q : TripQuery) (ts : List SchedLeg) (st : List StationRow)
        (prev : List PlanningRow) (r : PlanningRow),
        r ∈ planning_raw q ts st prev →
        ∃ p ∈ prev, ∃ l ∈ ts,
          r ∈ extOf q st p l
          ∧ ((l.to_municipality_sk ∉ p.municipalities
                ∧ l.to_municipality_sk ≠ q.input_to_municipality_sk)
              ∨ (l.to_station_code = q.input_to_station_code
                  ∧ hourOf l.arrival_time_tb = q.input_hour_arrival)))
    ∧ (∀ (legs : List ServiceLeg) (st : List StationRow) (q : TripQuery)
        (fuel : Nat) (r : OptimalRow),
        r ∈ get_trips_full legs st q fuel →
        freshIdx r.municipalities.dropLast) := by
  constructor
  · intro q ts st prev r hr
    obtain ⟨p, hp, l, hl, hext⟩ := mem_planning_raw.mp hr
    exact ⟨p, hp, l, hl, hext,
      (joinWhere_iff.mp (mem_extOf.mp hext).1).2.2.1⟩
  · intro legs st q fuel r hr
    rw [get_trips_full] at hr
    obtain ⟨p, hp, _, _, _, hmun, _⟩ := mem_trips_pipeline hr
    rw [hmun]
    exact (planning_inv hp).2.1

/-- Witness for the amended C5 on the shared-municipality output row. -/
theorem C5_no_repeat_amended_wit :
    freshIdx rowABC_shared.municipalities.dropLast :=
  C5_no_repeat_amended.2 sharedMuni_legs scenarioA_stations sharedMuni_query
    4 rowABC_shared (by decide)

/-- Claim C6: every row of a recursive iteration carries as `end_reached`
the maximum of the terminal indicator over the entire batch produced in that
iteration; hence as soon as one row of the batch is terminal, the whole
batch is marked terminated and the next iteration produces nothing. -/
theorem C6_frontier_flag (q : TripQuery) (ts : List SchedLeg)
    (st : List StationRow) (prev : List PlanningRow) (r : PlanningRow)
    (hr : r ∈ planning_next q ts st prev) :
    r.end_reached
      = (if (planning_raw q ts st prev).any (isTermB q) then 1 else 0)
    ∧ (isTermB q r = true →
        planning_next q ts st (planning_next q ts st prev) = []) := by
  constructor
  · obtain ⟨r0, h0, rfl⟩ := mem_planning_next.mp hr
    rfl
  · intro ht
    exact planning_next_of_all_one (planning_next_term_all ⟨r, hr, ht⟩)

/-- Witness for C6 on the shared-municipality fixture: the terminal row
`[A, B, C]` appears in iteration 1 and iteration 2 is empty. -/
theorem C6_frontier_flag_wit :
    rowABC_plan.end_reached
      = (if (planning_raw sharedMuni_query
            (train_schedule sharedMuni_legs sharedMuni_query)
            scenarioA_stations
            (planning_step sharedMuni_legs scenarioA_stations
              sharedMuni_query 0)).any (isTermB sharedMuni_query)
          then 1 else 0)
    ∧ (isTermB sharedMuni_query rowABC_plan = true →
        planning_next sharedMuni_query
          (train_schedule sharedMuni_legs sharedMuni_query)
          scenarioA_stations
          (planning_next sharedMuni_query
            (train_schedule sharedMuni_legs sharedMuni_query)
            scenarioA_stations
            (planning_step sharedMuni_legs scenarioA_stations
              sharedMuni_query 0)) = []) :=
  C6_frontier_flag sharedMuni_query
    (train_schedule sharedMuni_legs sharedMuni_query) scenarioA_stations
    (planning_step sharedMuni_legs scenarioA_stations sharedMuni_query 0)
    rowABC_plan (by decide)

/-- Claim C7: among terminated rows, the QUALIFY step keeps, per sorted
station sequence, exactly one row — one of minimum travel time, the earliest
such row in row order — and the surviving keys are pairwise distinct, all
the way to the final output. -/
theorem C7_dedup (rows : List PlanningRow) (r : PlanningRow)
    (hr : r ∈ qualifyFirst rows) :
    (r ∈ rows
      ∧ ∀ p ∈ rows, sortKey p.path = sortKey r.path →
          r.travel_time ≤ p.travel_time)
    ∧ (∀ p ∈ rows, ∃ d ∈ qualifyFirst rows,
        sortKey d.path = sortKey p.path)
    ∧ List.Pairwise (fun a b => sortKey a.path ≠ sortKey b.path)
        (qualifyFirst rows)
    ∧ (∀ i j p, (i, r) ∈ withIdx 0 rows → keptB rows (i, r) = true →
        (j, p) ∈ withIdx 0 rows → sortKey p.path = sortKey r.path →
        p.travel_time = r.travel_time → i ≤ j)
    ∧ (∀ (legs : List ServiceLeg) (st : List StationRow) (q : TripQuery)
        (fuel : Nat),
        List.Pairwise (fun a b => sortKey a.path ≠ sortKey b.path)
          (get_trips legs st q fuel)) := by
  refine ⟨⟨qualifyFirst_subset hr, qualifyFirst_min hr⟩,
    fun p hp => qualifyFirst_complete hp, qualifyFirst_pairwise rows,
    ?_, ?_⟩
  · intro i j p hi hk hj hkey htv
    exact qualifyFirst_first_seen hi hk hj hkey htv
  · intro legs st q fuel
    exact get_trips_pairwise_keys legs st q fuel

/-- Witness for C7 on the one-element row set of the shared-municipality
terminal row. -/
theorem C7_dedup_wit :
    (rowABC_plan ∈ [rowABC_plan]
      ∧ ∀ p ∈ [rowABC_plan], sortKey p.path = sortKey rowABC_plan.path →
          rowABC_plan.travel_time ≤ p.travel_time)
    ∧ (∀ p ∈ [rowABC_plan], ∃ d ∈ qualifyFirst [rowABC_plan],
        sortKey d.path = sortKey p.path)
    ∧ List.Pairwise (fun a b => sortKey a.path ≠ sortKey b.path)
        (qualifyFirst [rowABC_plan])
    ∧ (∀ i j p, (i, rowABC_plan) ∈ withIdx 0 [rowABC_plan] →
        keptB [rowABC_plan] (i, rowABC_plan) = true →
        (j, p) ∈ withIdx 0 [rowABC_plan] →
        sortKey p.path = sortKey rowABC_plan.path →
        p.travel_time = rowABC_plan.travel_time → i ≤ j)
    ∧ (∀ (legs : List ServiceLeg) (st : List StationRow) (q : TripQuery)
        (fuel : Nat),
        List.Pairwise (fun a b => sortKey a.path ≠ sortKey b.path)
          (get_trips legs st q fuel)) :=
  C7_dedup [rowABC_plan] rowABC_plan (by decide)

/-- Claim C8 counterexample: on the two-route fixture both deduplicated
paths have `m_p = 3` — a tie on the distinct-province count — yet the first
gets an empty (NULL) footprint and NULL overlap while the second's footprint
already contains the first's municipalities, giving overlap 2.  Under the
claim, rows tied on province count share the same footprint snapshot and so
the same overlap against it. -/
theorem C8_footprint_cex :
    (optimal_paths (distinct_paths
        (planning twoRoutes_legs twoRoutes_stations twoRoutes_query 4)
        twoRoutes_query)).map (fun r => (r.m_p, r.m_m, r.no_overlaps))
      = [(3, none, none), (3, some [["mO", "mX", "mD"]], some 2)]
    ∧ planning_step twoRoutes_legs twoRoutes_stations twoRoutes_query 2
        = [] := by
  exact ⟨by decide, by decide⟩

/-- Claim C8 (amended): the ranking pass orders the deduplicated paths by
descending distinct-province count and gives row `j` the footprint of the
municipality lists of all strictly earlier rows of that order — ROWS
framing, so earlier rows tied on the province count are included, the very
first row's footprint being NULL — and the overlap score of a row is the
number of its distinct municipalities occurring in the flattened
footprint (both recorded by `mkOptimal`). -/
theorem C8_footprint_amended (ds : List DistinctPath) (j : Nat)
    (hj : j < ds.length) :
    List.Sorted provGe (List.insertionSort provGe ds)
    ∧ (optimal_paths ds).getD j defaultOptimalRow
        = mkOptimal
            (((List.insertionSort provGe ds).take j).map
              (fun d => d.municipalities))
            ((List.insertionSort provGe ds).getD j defaultDistinctPath) := by
  refine ⟨List.sorted_insertionSort provGe ds, ?_⟩
  rw [optimal_paths,
    optimal_rows_getD _ [] j (by rw [List.length_insertionSort]; exact hj),
    List.nil_append]

/-- Witness for the amended C8 at row 1 of the two-route fixture. -/
theorem C8_footprint_amended_wit :
    List.Sorted provGe (List.insertionSort provGe (distinct_paths
        (planning twoRoutes_legs twoRoutes_stations twoRoutes_query 4)
        twoRoutes_query))
    ∧ (optimal_paths (distinct_paths
          (planning twoRoutes_legs twoRoutes_stations twoRoutes_query 4)
          twoRoutes_query)).getD 1 defaultOptimalRow
        = mkOptimal
            (((List.insertionSort provGe (distinct_paths
                (planning twoRoutes_legs twoRoutes_stations
                  twoRoutes_query 4) twoRoutes_query)).take 1).map
              (fun d => d.municipalities))
            ((List.insertionSort provGe (distinct_paths
                (planning twoRoutes_legs twoRoutes_stations
                  twoRoutes_query 4) twoRoutes_query)).getD 1
              defaultDistinctPath) :=
  C8_footprint_amended _ 1 (by decide)

/-- Claim C9: the final result sequence is sorted by `no_overlaps`
ascending (a NULL overlap — the top-diversity row's — sorting last, per the
engine's default null ordering), then `number_of_monuments` descending, then
`travel_time` ascending; the returned rows are the projections of that
sorted sequence. -/
theorem C9_final_ordering (legs : List ServiceLeg) (st : List StationRow)
    (q : TripQuery) (fuel : Nat) :
    List.Sorted finalLe (get_trips_full legs st q fuel)
    ∧ get_trips legs st q fuel
        = (get_trips_full legs st q fuel).map toResult := by
  constructor
  · rw [get_trips_full, trips_pipeline]
    exact List.sorted_insertionSort finalLe _
  · rfl
